import Mathlib

/-!
Shallow embedding of the jcc-mashup server (src/server.js): the session
store, cookie handling, the Daxko login choreography, and the schedule
proxy.  External HTTP effects (the axios calls) are modelled by an
explicit trace of call outcomes supplied by the environment: for each
upstream request the environment says whether the promise resolved with a
response, rejected with an error carrying a response, or rejected with a
network error carrying no response.  The handlers are then total
functions of their inputs and of that outcome trace.
-/

namespace Jcc

/-- A JavaScript-object style association list (string keys kept in
insertion order).  `objGet` mirrors property lookup and `Map.get`:
the first binding of the key wins. -/
def objGet (k : String) : List (String × α) → Option α
  | [] => none
  | p :: t => if p.1 = k then some p.2 else objGet k t

/-- Property assignment and `Map.set`: replace the first binding of the
key in place, otherwise append a new binding at the end. -/
def objSet (k : String) (v : α) : List (String × α) → List (String × α)
  | [] => [(k, v)]
  | p :: t => if p.1 = k then (k, v) :: t else p :: objSet k v t

/-- `Map.delete`: remove the binding of `k`. -/
def objDelete (k : String) : List (String × α) → List (String × α)
  | [] => []
  | p :: t => if p.1 = k then t else p :: objDelete k t

/-- The value of the last binding of `k` in the list, if any. -/
def lastValue (k : String) : List (String × α) → Option α
  | [] => none
  | p :: t =>
    match lastValue k t with
    | some v => some v
    | none => if p.1 = k then some p.2 else none

/-- Fold `objSet` over a list of bindings: the semantics of copying the
entries of one object into another (`Object.assign` / object spread). -/
def objAssignList (acc : List (String × α)) (l : List (String × α)) :
    List (String × α) :=
  l.foldl (fun st p => objSet p.1 p.2 st) acc

/-- A cookie set: a mapping from cookie name to value (server.js keeps it
as a plain object, mutated by `Object.assign`). -/
abbrev Cookies := List (String × String)

/-- One `Set-Cookie` header value matched against the regular expression
of `extractCookies` (server.js line 103), which requires the header to
begin with a name, an equals sign and a value: the name is the non-empty
text before the first `=` and the value the non-empty text from there up
to the first `;`. -/
def parseSetCookie (s : String) : Option (String × String) :=
  let name := s.data.takeWhile (fun c => c != '=')
  match s.data.dropWhile (fun c => c != '=') with
  | [] => none
  | _ :: tail =>
    let value := tail.takeWhile (fun c => c != ';')
    if name = [] ∨ value = [] then none
    else some (⟨name⟩, ⟨value⟩)

/-- `extractCookies` (server.js lines 98-110): fold the parsed
`Set-Cookie` headers into a fresh object, a later header overwriting an
earlier one of the same name; headers the pattern does not match
contribute nothing. -/
def extractCookies (setCookieHeaders : List String) : Cookies :=
  setCookieHeaders.foldl
    (fun acc h =>
      match parseSetCookie h with
      | some p => objSet p.1 p.2 acc
      | none => acc) []

/-- Merging freshly extracted cookies into the accumulated cookie set:
`Object.assign(initialCookies, responseCookies)` or an object spread. -/
def objAssign (old new : Cookies) : Cookies := objAssignList old new

/-- `buildCookieString` (server.js lines 113-115). -/
def buildCookieString (cookies : Cookies) : String :=
  String.intercalate "; " (cookies.map (fun p => p.1 ++ "=" ++ p.2))

/-- A stored session record (`saveSession`, server.js lines 49-55). -/
structure Session where
  cookies : Cookies
  timestamp : Nat
deriving DecidableEq

/-- The in-memory session store (`sessionStore`, a `Map` from session
token to session record). -/
abbrev Store := List (String × Session)

/-- Six months in milliseconds (server.js line 37). -/
def maxAge : Nat := 6 * 30 * 24 * 60 * 60 * 1000

/-- `loadSession` (server.js lines 29-46).  Returns the looked-up session
(none for a falsy token, a missing entry, or an entry older than
`maxAge`) together with the store after the call: an entry older than
`maxAge` is deleted.  Ages are natural-number subtraction; in JavaScript
a clock earlier than the creation time gives a negative age, which also
fails the `> maxAge` test, so truncating at zero agrees with the code. -/
def loadSession (now : Nat) (sessionToken : Option String) (store : Store) :
    Option Session × Store :=
  match sessionToken with
  | none => (none, store)
  | some t =>
    if t = "" then (none, store)
    else
      match objGet t store with
      | none => (none, store)
      | some session =>
        if now - session.timestamp > maxAge then (none, objDelete t store)
        else (some session, store)

/-- `saveSession` (server.js lines 49-55). -/
def saveSession (sessionToken : String) (cookies : Cookies) (now : Nat)
    (store : Store) : Store :=
  objSet sessionToken ⟨cookies, now⟩ store

/-- JSON values as produced by `JSON.parse`, plus the JavaScript
`undefined` for absent object fields.  Numbers are restricted to the
naturals, which covers every number this server reads or writes. -/
inductive JsValue where
  | jnull
  | jundef
  | jbool (b : Bool)
  | jnum (n : Nat)
  | jstr (s : String)
  | jarr (elems : List JsValue)
  | jobj (fields : List (String × JsValue))

/-- JavaScript property read on a parsed value: an object yields its last
binding of the key (`JSON.parse` keeps the last duplicate key), anything
else yields `undefined` (`none`); reading a property of `null` or
`undefined` throws, which callers handle where it matters. -/
def jsGetOpt (v : JsValue) (k : String) : Option JsValue :=
  match v with
  | .jobj fields => lastValue k fields
  | _ => none

/-- Whitespace skipping for the JSON grammar. -/
def skipWs (cs : List Char) : List Char :=
  cs.dropWhile (fun c => c == ' ' || c == '\n' || c == '\t' || c == '\r')

/-- JSON string body: characters after the opening quote, with the basic
escapes, up to the closing quote.  Returns the decoded string and the
remaining input. -/
def parseStrChars (acc : List Char) : List Char → Option (String × List Char)
  | [] => none
  | '"' :: rest => some (⟨acc.reverse⟩, rest)
  | '\\' :: c :: rest =>
    match c with
    | '"' => parseStrChars ('"' :: acc) rest
    | '\\' => parseStrChars ('\\' :: acc) rest
    | '/' => parseStrChars ('/' :: acc) rest
    | 'n' => parseStrChars ('\n' :: acc) rest
    | 't' => parseStrChars ('\t' :: acc) rest
    | _ => none
  | '\\' :: [] => none
  | c :: rest => parseStrChars (c :: acc) rest

/-- Decimal digit run to a natural number, returning the rest. -/
def digitsToNat (acc : Nat) : List Char → Nat × List Char
  | [] => (acc, [])
  | c :: rest =>
    if c.isDigit then digitsToNat (acc * 10 + (c.toNat - 48)) rest
    else (acc, c :: rest)

mutual

/-- Fuel-indexed JSON value parser (the fuel only bounds recursion depth;
`jsonParse` supplies more than enough). -/
def parseVal : Nat → List Char → Option (JsValue × List Char)
  | 0, _ => none
  | fuel + 1, cs =>
    match skipWs cs with
    | [] => none
    | '\x7b' :: rest => parseObjStart fuel rest
    | '[' :: rest => parseArrStart fuel rest
    | '"' :: rest => (parseStrChars [] rest).map (fun p => (JsValue.jstr p.1, p.2))
    | c :: rest =>
      if c.isDigit then
        let p := digitsToNat 0 (c :: rest)
        some (JsValue.jnum p.1, p.2)
      else if ("null".data).isPrefixOf (c :: rest) then
        some (JsValue.jnull, (c :: rest).drop 4)
      else if ("true".data).isPrefixOf (c :: rest) then
        some (JsValue.jbool true, (c :: rest).drop 4)
      else if ("false".data).isPrefixOf (c :: rest) then
        some (JsValue.jbool false, (c :: rest).drop 5)
      else none

/-- Object body right after the opening brace. -/
def parseObjStart : Nat → List Char → Option (JsValue × List Char)
  | 0, _ => none
  | fuel + 1, cs =>
    match skipWs cs with
    | '\x7d' :: rest => some (JsValue.jobj [], rest)
    | cs₁ => parseObjLoop fuel [] cs₁

/-- Object members: string key, colon, value, then a comma or the
closing brace. -/
def parseObjLoop : Nat → List (String × JsValue) → List Char →
    Option (JsValue × List Char)
  | 0, _, _ => none
  | fuel + 1, acc, cs =>
    match skipWs cs with
    | '"' :: rest =>
      match parseStrChars [] rest with
      | none => none
      | some (key, rest₁) =>
        match skipWs rest₁ with
        | ':' :: rest₂ =>
          match parseVal fuel rest₂ with
          | none => none
          | some (v, rest₃) =>
            match skipWs rest₃ with
            | ',' :: rest₄ => parseObjLoop fuel (acc ++ [(key, v)]) rest₄
            | '\x7d' :: rest₄ => some (JsValue.jobj (acc ++ [(key, v)]), rest₄)
            | _ => none
        | _ => none
    | _ => none

/-- Array body right after the opening bracket. -/
def parseArrStart : Nat → List Char → Option (JsValue × List Char)
  | 0, _ => none
  | fuel + 1, cs =>
    match skipWs cs with
    | ']' :: rest => some (JsValue.jarr [], rest)
    | cs₁ => parseArrLoop fuel [] cs₁

/-- Array elements separated by commas up to the closing bracket. -/
def parseArrLoop : Nat → List JsValue → List Char →
    Option (JsValue × List Char)
  | 0, _, _ => none
  | fuel + 1, acc, cs =>
    match parseVal fuel cs with
    | none => none
    | some (v, rest) =>
      match skipWs rest with
      | ',' :: rest₁ => parseArrLoop fuel (acc ++ [v]) rest₁
      | ']' :: rest₁ => some (JsValue.jarr (acc ++ [v]), rest₁)
      | _ => none

end

/-- `JSON.parse`: a strict parse of the whole input (trailing content
other than whitespace is an error, reported as `none` like any other
parse failure, which the callers catch). -/
def jsonParse (s : String) : Option JsValue :=
  match parseVal (s.length + 8) s.data with
  | some (v, rest) => if skipWs rest = [] then some v else none
  | none => none

/-- Index of the first occurrence of `needle` in the list, if any. -/
def subFind (needle : List Char) : List Char → Option Nat
  | [] => if needle = [] then some 0 else none
  | c :: t =>
    if needle.isPrefixOf (c :: t) then some 0
    else (subFind needle t).map (fun n => n + 1)

/-- All occurrence indices of `needle`, offset by `base`, fuel-bounded. -/
def subFindAll (fuel : Nat) (needle : List Char) (cs : List Char) (base : Nat) :
    List Nat :=
  match fuel with
  | 0 => []
  | fuel + 1 =>
    match subFind needle cs with
    | none => []
    | some i => (base + i) :: subFindAll fuel needle (cs.drop (i + 1)) (base + i + 1)

/-- The lazy group of the props regular expression
(server.js line 359).  Given the text after the opening brace, extend the
group to each successive terminating brace-semicolon in turn (the lazy
quantifier backtracks outward) until the literal `props.controller_url`
occurs somewhere after it.  Returns the capture group including its
braces. -/
def propsClose (fuel : Nat) (accPre : List Char) (rest : List Char) :
    Option (List Char) :=
  match fuel with
  | 0 => none
  | fuel + 1 =>
    match subFind ("\x7d;".data) rest with
    | none => none
    | some j =>
      let grp := accPre ++ rest.take (j + 1)
      let after := rest.drop (j + 2)
      match subFind ("props.controller_url".data) after with
      | some _ => some grp
      | none => propsClose fuel (accPre ++ rest.take (j + 2)) (rest.drop (j + 2))

/-- Scan of `html.match(/var props = (\x7b[\s\S]*?\x7d);[\s\S]*?props\.controller_url/)`
(server.js line 359): at each occurrence of the literal head, left to
right, try the lazy group; the first succeeding start position wins. -/
def findPropsAux (fuel : Nat) (cs : List Char) : Option String :=
  match fuel with
  | 0 => none
  | fuel + 1 =>
    match subFind ("var props = \x7b".data) cs with
    | none => none
    | some i =>
      let afterBrace := cs.drop (i + 13)
      match propsClose (afterBrace.length + 1) ['\x7b'] afterBrace with
      | some grp => some ⟨grp⟩
      | none => findPropsAux fuel (cs.drop (i + 1))

/-- The captured props object literal of the schedule page, if the
pattern matches. -/
def findProps (html : String) : Option String :=
  findPropsAux (html.length + 1) html.data

/-- The literal head of the anti-forgery regular expression
(server.js line 252). -/
def markerCsrf : List Char := ("name=" ++ "\"__RequestVerificationToken\"").data

/-- One candidate match of `value="([^"]+)"` at offset `p` after the
marker: the capture is the non-empty text up to the next quote, which
must exist. -/
def csrfValueAt (after : List Char) (p : Nat) : Option String :=
  let tailp := after.drop (p + 7)
  let cap := tailp.takeWhile (fun c => c != '"')
  if cap ≠ [] ∧ cap.length < tailp.length then some ⟨cap⟩ else none

/-- The `[^>]+value="([^"]+)"` part of the anti-forgery regular
expression: the literal `value="` must start after at least one
character, with everything before it free of `>`; the greedy quantifier
prefers the latest such start, backtracking to earlier ones. -/
def csrfValue (after : List Char) : Option String :=
  let run := after.takeWhile (fun c => c != '>')
  let occs := subFindAll (after.length + 1) ("value=" ++ "\"").data after 0
  let good := occs.filter (fun p => decide (1 ≤ p) && decide (p ≤ run.length))
  good.reverse.findSome? (fun p => csrfValueAt after p)

/-- Scan of
`html.match(/name="__RequestVerificationToken"[^>]+value="([^"]+)"/)`
(server.js line 252), left to right over the occurrences of the literal
head. -/
def findCsrfAux (fuel : Nat) (cs : List Char) : Option String :=
  match fuel with
  | 0 => none
  | fuel + 1 =>
    match subFind markerCsrf cs with
    | none => none
    | some i =>
      let after := cs.drop (i + markerCsrf.length)
      match csrfValue after with
      | some v => some v
      | none => findCsrfAux fuel (cs.drop (i + 1))

/-- The captured anti-forgery token of the login page, if the pattern
matches. -/
def findCsrf (html : String) : Option String :=
  findCsrfAux (html.length + 1) html.data

/-- The parts of an upstream HTTP response the server reads: the status,
the `set-cookie` header values (`headers['set-cookie'] || []`), the
`location` header, and the body text (`response.data`). -/
structure Resp where
  status : Nat
  setCookie : List String
  location : Option String
  body : String
deriving DecidableEq

/-- The outcome of one axios call, supplied by the environment: the
promise resolved with a response, rejected with an error that carries a
response (`error.response` set), or rejected with a network error that
carries none. -/
inductive Outcome where
  | ok (r : Resp)
  | errResp (r : Resp)
  | netErr
deriving DecidableEq

/-- The form fields of the login POST (server.js lines 258-266). -/
structure LoginForm where
  __RequestVerificationToken : String
  user_name : String
  password : String
  keep_me_logged_in : String
  return_url : String
  barcode : String
  oauth : String
deriving DecidableEq

/-- The upstream requests the server can issue, recorded in order as a
call log. -/
inductive Req where
  | findAccount (url : String)
  | loginPage (user : String)
  | loginPost (form : LoginForm)
  | schedPage
  | getClasses (body : JsValue)

/-- Pop the next outcome off the trace; an exhausted trace behaves as a
network failure. -/
def popEv : List Outcome → Outcome × List Outcome
  | [] => (.netErr, [])
  | e :: t => (e, t)

/-- What the wire delivers for one request: a response from the
upstream, or nothing at all (connection failure). -/
inductive Wire where
  | resp (r : Resp)
  | down

/-- axios's settlement contract: a received response resolves exactly
when the call's `validateStatus` accepts its status (with
`maxRedirects: 0` a redirect status is delivered as an ordinary
response, not followed); a request that received no response rejects
with no response attached.  The reachable outcomes of a call are the
image of this function over its `validateStatus`. -/
def axiosSettle (validate : Nat → Bool) : Wire → Outcome
  | .resp r => if validate r.status then .ok r else .errResp r
  | .down => .netErr

/-- The `validateStatus` of the find-account request and of the login
form POST (server.js lines 182 and 288): accept any status in
[200, 400). -/
def validateStatusFindAccount (status : Nat) : Bool :=
  decide (200 ≤ status) && decide (status < 400)

/-- JavaScript `String.prototype.startsWith`. -/
def jsStartsWith (s pre : String) : Bool :=
  pre.data.isPrefixOf s.data

/-- The find-account URL (server.js line 160). -/
def findAccountUrl : String :=
  "https://operations.daxko.com/online/5198/Security/login.mvc/find_account?return_url=%2fonline%2f5198%2fRedirect%2fHomepage.mvc"

/-- The synthesized tracking cookies (server.js lines 147-154), as a
function of the random draw and of the epoch-second clock read. -/
def initCookies (rand nowSec : Nat) : Cookies :=
  [("__utma", "1." ++ toString rand ++ "." ++ toString nowSec ++ "." ++
      toString nowSec ++ "." ++ toString nowSec ++ ".1"),
   ("__utmb", "1.3.10." ++ toString nowSec),
   ("__utmc", "1"),
   ("__utmz", "1." ++ toString nowSec ++ ".1.1.utmcsr=(direct)|utmccn=(direct)|utmcmd=(none)"),
   ("__utmt", "1"),
   ("__oauth_admin", "")]

/-- The manual redirect loop of the find-account step (server.js lines
166-219): up to `fuel` (three) requests; a resolved response ends the
loop as the find-account response after merging its cookies; a rejection
carrying a 302 response merges that response's cookies and computes the
next URL from its `location` header (reading `location` of a response
without one throws, as does a rejection with any other status or with no
response, all landing in the outer catch, modelled as `Except.error`
carrying the call log).  Exhausting the fuel leaves the find-account
response unassigned.  Note on reachability: this call's `validateStatus`
accepts every status in [200, 400) while `maxRedirects` is 0
(server.js lines 181-183), so under axios's settlement
(`axiosSettle validateStatusFindAccount`) a received 302 *resolves* and
ends the loop on the spot; the rejected-with-302 branch below mirrors
the catch of lines 194-218, which is dead code at run time and kept here
for textual fidelity — theorems about reachable behaviour quantify over
settled traces. -/
def findAccountLoop : Nat → String → Cookies → List Outcome → List Req →
    Except (List Req) (Cookies × Option Resp × List Outcome × List Req)
  | 0, _, cookies, trace, log => .ok (cookies, none, trace, log)
  | fuel + 1, url, cookies, trace, log =>
    let log := log ++ [Req.findAccount url]
    let (ev, rest) := popEv trace
    match ev with
    | .ok r => .ok (objAssign cookies (extractCookies r.setCookie), some r, rest, log)
    | .errResp r =>
      if r.status = 302 then
        let cookies := objAssign cookies (extractCookies r.setCookie)
        match r.location with
        | none => .error log
        | some loc =>
          let url' :=
            if jsStartsWith loc "/" then "https://operations.daxko.com" ++ loc
            else if jsStartsWith loc "http" then loc
            else findAccountUrl
          findAccountLoop fuel url' cookies rest log
      else .error log
    | .netErr => .error log

/-- The anti-forgery token drawn from the login page body
(server.js lines 248-255): empty when the body is falsy or the pattern
does not match. -/
def csrfOf (body : String) : String :=
  if body = "" then "" else (findCsrf body).getD ""

/-- The steps after the find-account loop (server.js lines 221-313):
reading `findAccountResponse.status` throws when the loop never assigned
it; then the login-page request (any rejection throws), cookie merge and
token extraction; then the form POST, where a rejection carrying a 302
response is the expected success path and anything else throws; finally
the merge producing `allCookies`. -/
def afterFind (u p : String) (cookies : Cookies) (faResp : Option Resp)
    (trace : List Outcome) (log : List Req) :
    Except (List Req) (Cookies × List Req) :=
  match faResp with
  | none => .error log
  | some _ =>
    let log := log ++ [Req.loginPage u]
    let (ev, rest) := popEv trace
    match ev with
    | .ok lp =>
      let cookies := objAssign cookies (extractCookies lp.setCookie)
      let form : LoginForm :=
        ⟨csrfOf lp.body, u, p, "false", "/online/5198/Redirect/Homepage.mvc", "", ""⟩
      let log := log ++ [Req.loginPost form]
      let (ev₂, _) := popEv rest
      match ev₂ with
      | .ok r => .ok (objAssign cookies (extractCookies r.setCookie), log)
      | .errResp r =>
        if r.status = 302 then .ok (objAssign cookies (extractCookies r.setCookie), log)
        else .error log
      | .netErr => .error log
    | _ => .error log

/-- The whole upstream choreography of a login attempt, from the
synthesized tracking cookies to the merged cookie set after the form
POST. -/
def loginSteps (u p : String) (rand nowSec : Nat) (trace : List Outcome) :
    Except (List Req) (Cookies × List Req) :=
  match findAccountLoop 3 findAccountUrl (initCookies rand nowSec) trace [] with
  | .error log => .error log
  | .ok (cookies, faResp, rest, log) => afterFind u p cookies faResp rest log

/-- The upstream call log of a run of the login choreography (or of its
post-find-account steps), whether it ended in a thrown error or in a
merged cookie set. -/
def logOf : Except (List Req) (Cookies × List Req) → List Req
  | .error l => l
  | .ok p => p.2

/-- The request body of `POST /api/login`. -/
structure LoginBody where
  username : Option String
  password : Option String

/-- The response of the login handler, by status. -/
inductive LoginResult where
  | badRequest400
  | invalidCreds401
  | serverError500
  | ok200 (sessionToken : String)
deriving DecidableEq

/-- JavaScript truthiness of the auth-cookie lookup
(`if (allCookies['.online_auth'])`, server.js line 316): the key must be
present with a non-empty value. -/
def cookieTruthy (c : Cookies) (k : String) : Bool :=
  match objGet k c with
  | some v => v != ""
  | none => false

/-- `POST /api/login` (server.js lines 135-342).  Inputs beyond the body:
the random draw and the epoch-second clock read for the tracking cookies,
the epoch-millisecond clock read used when storing the session, the token
`crypto.randomBytes` produced, the session store, and the outcome trace.
Returns the response, the store after the call, and the upstream call
log. -/
def loginHandler (body : LoginBody) (rand nowSec nowMs : Nat) (newTok : String)
    (store : Store) (trace : List Outcome) : LoginResult × Store × List Req :=
  match body.username, body.password with
  | some u, some p =>
    if u = "" ∨ p = "" then (.badRequest400, store, [])
    else
      match loginSteps u p rand nowSec trace with
      | .error log => (.serverError500, store, log)
      | .ok (allCookies, log) =>
        if cookieTruthy allCookies ".online_auth" then
          (.ok200 newTok, saveSession newTok allCookies nowMs store, log)
        else (.invalidCreds401, store, log)
  | _, _ => (.badRequest400, store, [])

/-- Session token resolution shared by `GET /api/session` and
`GET /api/schedule` (server.js lines 119 and 388):
`req.headers['x-session-token'] || req.cookies?.sessionToken` — a falsy
header (absent or empty) falls through to the cookie. -/
def resolveSessionToken (headerTok cookieTok : Option String) : Option String :=
  match headerTok with
  | some h => if h = "" then cookieTok else some h
  | none => cookieTok

/-- The response of `GET /api/session`, by status. -/
inductive SessionResult where
  | unauthenticated
  | authenticated (sessionAge timestamp : Nat)
deriving DecidableEq

/-- `GET /api/session` (server.js lines 118-132).  The session record in
this embedding always carries a cookies object, so the
`!session.cookies` guard of line 123 never fires beyond `!session`. -/
def sessionHandler (headerTok cookieTok : Option String) (now : Nat)
    (store : Store) : SessionResult × Store :=
  let tok := resolveSessionToken headerTok cookieTok
  match loadSession now tok store with
  | (none, store₁) => (.unauthenticated, store₁)
  | (some s, store₁) => (.authenticated (now - s.timestamp) s.timestamp, store₁)

/-- The mappings scraped from the schedule page
(server.js lines 374-379). -/
structure Mappings where
  instructors : JsValue
  areas : JsValue
  branches : JsValue
  gxp_account_id : Option JsValue

/-- Reading `props.<k>.length` for the log lines of server.js 370-372
throws exactly when the field is `undefined` or `null`; on anything else
it is at worst `undefined` and printing proceeds. -/
def fieldForLength (props : JsValue) (k : String) : Option JsValue :=
  match jsGetOpt props k with
  | some JsValue.jnull => none
  | some JsValue.jundef => none
  | some v => some v
  | none => none

/-- `fetchScheduleMappings` (server.js lines 345-384): a rejected
schedule-page fetch, a failed props match, a failed `JSON.parse`, and a
throwing `props.<field>.length` read are all caught and yield `null`. -/
def fetchScheduleMappings (_cookies : Cookies) (ev : Outcome) : Option Mappings :=
  match ev with
  | .ok r =>
    match findProps r.body with
    | none => none
    | some capture =>
      match jsonParse capture with
      | none => none
      | some props =>
        match fieldForLength props "instructors", fieldForLength props "areas",
            fieldForLength props "branches" with
        | some ins, some ar, some br =>
          some ⟨ins, ar, br, jsGetOpt props "gxp_account_id"⟩
        | _, _, _ => none
  | _ => none

/-- One element of `mappings.areas.map(...)` (server.js lines 408-412):
reading fields of a `null` (or `undefined`) element throws; on any other
element an absent field is just `undefined`. -/
def mapArea (a : JsValue) : Option JsValue :=
  match a with
  | .jnull => none
  | .jundef => none
  | _ => some (.jobj
      [("gxp_studio_id", (jsGetOpt a "gxp_studio_id").getD .jundef),
       ("area_id", (jsGetOpt a "area_id").getD .jundef),
       ("area_name", (jsGetOpt a "area_name").getD .jundef)])

/-- One element of `mappings.instructors.map(...)` (server.js lines
414-420). -/
def mapInstructor (i : JsValue) : Option JsValue :=
  match i with
  | .jnull => none
  | .jundef => none
  | _ => some (.jobj
      [("gxp_instructor_id", (jsGetOpt i "gxp_instructor_id").getD .jundef),
       ("admin_id", (jsGetOpt i "admin_id").getD .jundef),
       ("first_name", (jsGetOpt i "first_name").getD .jundef),
       ("last_name", (jsGetOpt i "last_name").getD .jundef),
       ("admin_name", (jsGetOpt i "admin_name").getD .jundef)])

/-- The get-classes request body (server.js lines 408-437).  Calling
`.map` on a non-array mappings field throws, caught by the handler's
generic branch, hence the `Option`. -/
def buildRequestBody (m : Mappings) (date : String) : Option JsValue :=
  match m.areas, m.instructors with
  | .jarr areas, .jarr instrs =>
    match areas.mapM mapArea, instrs.mapM mapInstructor with
    | some mas, some mis =>
      some (.jobj
        [("all_mapped_areas", .jarr mas),
         ("all_mapped_instructor", .jarr mis),
         ("all_mapped_branches", m.branches),
         ("filters", .jobj
           [("date", .jstr date),
            ("gxp_location_id", .jnum 6469),
            ("gxp_instructor_ids", .jarr []),
            ("gxp_studio_ids", .jarr []),
            ("gxp_class_name_ids", .jarr []),
            ("gxp_category_ids", .jarr [])]),
         ("gxp_account_id", m.gxp_account_id.getD .jundef),
         ("any_exerciser_id_of_unit", .jnum 6093357),
         ("page", .jnum 1)])
    | _, _ => none
  | _, _ => none

/-- The response of `GET /api/schedule`, by status and message. -/
inductive SchedResult where
  | unauth401
  | mappingsFail500
  | expired401
  | genericErr500
  | ok200 (body : String)
deriving DecidableEq

/-- The persisted session file: `none` when `.session.json` does not
exist, otherwise its parsed JSON document. -/
abbrev FileState := Option JsValue

/-- `GET /api/schedule` (server.js lines 387-467).  Returns the response,
the store after the call, the session file after the call, and the
upstream call log.  A rejected get-classes call carrying a 401 response
unlinks the session file and answers 401; any other failure answers the
generic 500. -/
def scheduleHandler (headerTok cookieTok dateQ : Option String) (today : String)
    (now : Nat) (store : Store) (file : FileState) (trace : List Outcome) :
    SchedResult × Store × FileState × List Req :=
  let tok := resolveSessionToken headerTok cookieTok
  match loadSession now tok store with
  | (none, store₁) => (.unauth401, store₁, file, [])
  | (some s, store₁) =>
    let date :=
      match dateQ with
      | some d => if d = "" then today else d
      | none => today
    let (ev, rest) := popEv trace
    let log := [Req.schedPage]
    match fetchScheduleMappings s.cookies ev with
    | none => (.mappingsFail500, store₁, file, log)
    | some m =>
      match buildRequestBody m date with
      | none => (.genericErr500, store₁, file, log)
      | some reqBody =>
        let log := log ++ [Req.getClasses reqBody]
        let (ev₂, _) := popEv rest
        match ev₂ with
        | .ok r => (.ok200 r.body, store₁, file, log)
        | .errResp r =>
          if r.status = 401 then (.expired401, store₁, none, log)
          else (.genericErr500, store₁, file, log)
        | .netErr => (.genericErr500, store₁, file, log)

/-- One session record as written to `.session.json`
(`JSON.stringify` in `saveSessionsToDisk`, server.js lines 77-89). -/
def sessionToJson (s : Session) : JsValue :=
  .jobj [("cookies", .jobj (s.cookies.map (fun nv => (nv.1, .jstr nv.2)))),
         ("timestamp", .jnum s.timestamp)]

/-- `saveSessionsToDisk` (server.js lines 77-89), at the level of the
JSON document written to disk (`JSON.parse` of `JSON.stringify` is the
identity on this data, a contract of the JSON library). -/
def saveSessionsToDisk (store : Store) : JsValue :=
  .jobj (store.map (fun ts => (ts.1, sessionToJson ts.2)))

/-- A session record read back from the persisted JSON document; fields
of unexpected shape degrade to the empty object and zero, which can only
arise from a file this server did not write. -/
def sessionFromJson (j : JsValue) : Session :=
  { cookies :=
      match jsGetOpt j "cookies" with
      | some (.jobj fs) =>
        fs.filterMap (fun nv =>
          match nv.2 with
          | .jstr v => some (nv.1, v)
          | _ => none)
      | _ => []
    timestamp :=
      match jsGetOpt j "timestamp" with
      | some (.jnum n) => n
      | _ => 0 }

/-- `loadSessionsFromDisk` (server.js lines 58-74): set every entry of
the parsed document into the store, in order. -/
def loadSessionsFromDisk (j : JsValue) (store : Store) : Store :=
  match j with
  | .jobj entries =>
    objAssignList store (entries.map (fun ts => (ts.1, sessionFromJson ts.2)))
  | _ => store

/-! Helper lemmas about the association-list primitives. -/

theorem objGet_objSet (l : List (String × α)) (k n : String) (v : α) :
    objGet n (objSet k v l) = if k = n then some v else objGet n l := by
  induction l with
  | nil => simp [objGet, objSet]
  | cons p t ih =>
    by_cases hpk : p.1 = k
    · simp only [objSet, hpk, if_pos, objGet]
      by_cases hkn : k = n <;> simp [hkn, hpk, objGet]
    · simp only [objSet, hpk, if_neg, not_false_iff, objGet, ih]
      by_cases hpn : p.1 = n
      · have : ¬ k = n := fun h => hpk (h ▸ hpn)
        simp [hpn, this]
      · simp [hpn]

theorem objGet_objAssignList (l : List (String × α)) :
    ∀ (acc : List (String × α)) (n : String),
      objGet n (objAssignList acc l)
        = match lastValue n l with
          | some v => some v
          | none => objGet n acc := by
  induction l with
  | nil => intro acc n; simp [objAssignList, lastValue, List.foldl]
  | cons p t ih =>
    intro acc n
    have step : objAssignList acc (p :: t) = objAssignList (objSet p.1 p.2 acc) t := rfl
    rw [step, ih]
    cases h : lastValue n t with
    | some v => simp [lastValue, h]
    | none =>
      simp only [lastValue, h, objGet_objSet]
      by_cases hpn : p.1 = n <;> simp [hpn]

theorem extractCookies_foldl (hs : List String) :
    ∀ acc : Cookies,
      hs.foldl
        (fun acc h =>
          match parseSetCookie h with
          | some p => objSet p.1 p.2 acc
          | none => acc) acc
        = objAssignList acc (hs.filterMap parseSetCookie) := by
  induction hs with
  | nil => intro acc; simp [objAssignList]
  | cons h t ih =>
    intro acc
    cases hp : parseSetCookie h <;>
      simp [List.foldl, hp, ih, List.filterMap_cons, objAssignList]

theorem extractCookies_eq (hs : List String) :
    extractCookies hs = objAssignList [] (hs.filterMap parseSetCookie) :=
  extractCookies_foldl hs []

theorem lastValue_mem {l : List (String × α)} {k : String} {v : α}
    (h : lastValue k l = some v) : (k, v) ∈ l := by
  induction l with
  | nil => simp [lastValue] at h
  | cons p t ih =>
    simp only [lastValue] at h
    cases ht : lastValue k t with
    | some w =>
      rw [ht] at h
      exact List.mem_cons_of_mem p (ih (ht.trans (by injection h with h'; rw [h'])))
    | none =>
      rw [ht] at h
      by_cases hpk : p.1 = k
      · rw [if_pos hpk] at h
        injection h with h'
        have : p = (k, v) := by
          cases p; simp only [Prod.mk.injEq]; exact ⟨hpk, h'⟩
        exact this ▸ List.mem_cons_self p t
      · rw [if_neg hpk] at h; exact absurd h (by simp)

theorem parseSetCookie_val_ne {h : String} {n v : String}
    (hp : parseSetCookie h = some (n, v)) : v ≠ "" := by
  unfold parseSetCookie at hp
  cases hd : h.data.dropWhile (fun c => c != '=') with
  | nil => rw [hd] at hp; simp at hp
  | cons c tail =>
    rw [hd] at hp
    simp only at hp
    split at hp
    · simp at hp
    · rename_i hcond
      injection hp with hp'
      have hv : v = ⟨tail.takeWhile (fun c => c != ';')⟩ := by
        injection hp' with h1 h2; exact h2.symm
      have hne : tail.takeWhile (fun c => c != ';') ≠ [] := by
        intro hnil
        exact hcond (Or.inr hnil)
      rw [hv]
      intro hcontra
      apply hne
      have : (⟨tail.takeWhile (fun c => c != ';')⟩ : String).data = ("" : String).data := by
        rw [hcontra]
      simpa using this

theorem lastValue_eq_none {l : List (String × α)} {k : String}
    (h : k ∉ l.map Prod.fst) : lastValue k l = none := by
  induction l with
  | nil => rfl
  | cons p t ih =>
    simp only [List.map_cons, List.mem_cons] at h
    push_neg at h
    simp only [lastValue, ih h.2]
    rw [if_neg (fun hc => h.1 hc.symm)]

theorem lastValue_eq_objGet_of_nodup {l : List (String × α)} {k : String}
    (h : (l.map Prod.fst).Nodup) : lastValue k l = objGet k l := by
  induction l with
  | nil => rfl
  | cons p t ih =>
    simp only [List.map_cons, List.nodup_cons] at h
    by_cases hpk : p.1 = k
    · have : k ∉ t.map Prod.fst := hpk ▸ h.1
      simp [lastValue, objGet, lastValue_eq_none this, hpk]
    · simp only [lastValue, objGet, ih h.2, hpk, if_neg, if_false]
      cases objGet k t <;> simp

theorem objSet_keys (l : List (String × α)) (k : String) (v : α) :
    (objSet k v l).map Prod.fst
      = if k ∈ l.map Prod.fst then l.map Prod.fst else l.map Prod.fst ++ [k] := by
  induction l with
  | nil => simp [objSet]
  | cons p t ih =>
    by_cases hpk : p.1 = k
    · simp [objSet, hpk]
    · have hkp : ¬ k = p.1 := fun hc => hpk hc.symm
      simp only [objSet, hpk, if_neg, not_false_iff, List.map_cons, ih]
      by_cases hk : k ∈ t.map Prod.fst
      · simp [hk, hkp]
      · simp [hk, hkp]

theorem nodup_objSet {l : List (String × α)} {k : String} {v : α}
    (h : (l.map Prod.fst).Nodup) : ((objSet k v l).map Prod.fst).Nodup := by
  rw [objSet_keys]
  by_cases hk : k ∈ l.map Prod.fst
  · simpa [hk]
  · rw [if_neg hk]
    exact List.Nodup.append h (List.nodup_singleton k)
      (List.disjoint_singleton.mpr hk)

theorem nodup_objAssignList (l : List (String × α)) :
    ∀ acc : List (String × α), (acc.map Prod.fst).Nodup →
      ((objAssignList acc l).map Prod.fst).Nodup := by
  induction l with
  | nil => intro acc h; simpa [objAssignList]
  | cons p t ih =>
    intro acc h
    exact ih (objSet p.1 p.2 acc) (nodup_objSet h)

theorem nodup_extractCookies (hs : List String) :
    ((extractCookies hs).map Prod.fst).Nodup := by
  rw [extractCookies_eq]
  exact nodup_objAssignList _ [] (by simp)

theorem objGet_extractCookies (hs : List String) (n : String) :
    objGet n (extractCookies hs) = lastValue n (hs.filterMap parseSetCookie) := by
  rw [extractCookies_eq, objGet_objAssignList]
  cases lastValue n (hs.filterMap parseSetCookie) <;> simp [objGet]

/-! Helper lemmas about `takeWhile` and `dropWhile` over a split list,
used to characterize the `Set-Cookie` pattern. -/

theorem takeWhile_append_sat (p : Char → Bool) (l₁ l₂ : List Char)
    (h : ∀ c ∈ l₁, p c = true) :
    (l₁ ++ l₂).takeWhile p = l₁ ++ l₂.takeWhile p := by
  induction l₁ with
  | nil => simp
  | cons c t ih =>
    have hc : p c = true := h c (List.mem_cons_self c t)
    simp only [List.cons_append, List.takeWhile_cons, hc, if_true]
    rw [ih (fun d hd => h d (List.mem_cons_of_mem c hd))]

theorem dropWhile_append_sat (p : Char → Bool) (l₁ l₂ : List Char)
    (h : ∀ c ∈ l₁, p c = true) :
    (l₁ ++ l₂).dropWhile p = l₂.dropWhile p := by
  induction l₁ with
  | nil => simp
  | cons c t ih =>
    have hc : p c = true := h c (List.mem_cons_self c t)
    simp only [List.cons_append, List.dropWhile_cons, hc, if_true]
    exact ih (fun d hd => h d (List.mem_cons_of_mem c hd))

theorem dropWhile_sat_nil (p : Char → Bool) (l : List Char)
    (h : ∀ c ∈ l, p c = true) : l.dropWhile p = [] := by
  induction l with
  | nil => rfl
  | cons c t ih =>
    have hc : p c = true := h c (List.mem_cons_self c t)
    simp only [List.dropWhile_cons, hc, if_true]
    exact ih (fun d hd => h d (List.mem_cons_of_mem c hd))

/-! The flow invariant used for the auth-cookie check: no step of the
login choreography can bind `.online_auth` to the empty string, because
the synthesized tracking cookies do not contain that name and the
`Set-Cookie` pattern only ever captures non-empty values. -/

/-- The auth-cookie name is never bound to an empty value. -/
def AuthSane (c : Cookies) : Prop :=
  ∀ v, objGet ".online_auth" c = some v → v ≠ ""

theorem authSane_initCookies (rand nowSec : Nat) :
    AuthSane (initCookies rand nowSec) := by
  intro v h
  have : objGet ".online_auth" (initCookies rand nowSec) = none := rfl
  rw [this] at h
  exact absurd h (by simp)

theorem authSane_objAssign_extract {c : Cookies} (hs : List String)
    (h : AuthSane c) : AuthSane (objAssign c (extractCookies hs)) := by
  intro v hv
  rw [objAssign, objGet_objAssignList] at hv
  cases hl : lastValue ".online_auth" (extractCookies hs) with
  | some w =>
    rw [hl] at hv
    injection hv with hv'
    subst hv'
    rw [lastValue_eq_objGet_of_nodup (nodup_extractCookies hs),
      objGet_extractCookies] at hl
    obtain ⟨hdr, -, hparse⟩ := List.mem_filterMap.mp (lastValue_mem hl)
    exact parseSetCookie_val_ne hparse
  | none => rw [hl] at hv; exact h v hv

theorem findAccountLoop_authSane :
    ∀ (fuel : Nat) (url : String) (c : Cookies) (trace : List Outcome)
      (log : List Req) (c' : Cookies) (fa : Option Resp)
      (rest : List Outcome) (log' : List Req),
      AuthSane c →
      findAccountLoop fuel url c trace log = .ok (c', fa, rest, log') →
      AuthSane c' := by
  intro fuel
  induction fuel with
  | zero =>
    intro url c trace log c' fa rest log' hc hok
    simp only [findAccountLoop] at hok
    injection hok with h'
    have h1 : c = c' := congrArg Prod.fst h'
    exact h1 ▸ hc
  | succ fuel ih =>
    intro url c trace log c' fa rest log' hc hok
    simp only [findAccountLoop] at hok
    cases trace with
    | nil => simp [popEv] at hok
    | cons ev rest₀ =>
      simp only [popEv] at hok
      cases ev with
      | ok r =>
        simp only at hok
        injection hok with h'
        have h1 : objAssign c (extractCookies r.setCookie) = c' := congrArg Prod.fst h'
        exact h1 ▸ authSane_objAssign_extract r.setCookie hc
      | errResp r =>
        simp only at hok
        by_cases h302 : r.status = 302
        · rw [if_pos h302] at hok
          cases hloc : r.location with
          | none => rw [hloc] at hok; exact absurd hok (by simp)
          | some loc =>
            rw [hloc] at hok
            exact ih _ _ _ _ _ _ _ _ (authSane_objAssign_extract r.setCookie hc) hok
        · rw [if_neg h302] at hok; exact absurd hok (by simp)
      | netErr => simp at hok

theorem afterFind_authSane {u p : String} {c : Cookies} {fa : Option Resp}
    {trace : List Outcome} {log : List Req} {allC : Cookies} {log' : List Req}
    (hc : AuthSane c)
    (hok : afterFind u p c fa trace log = .ok (allC, log')) : AuthSane allC := by
  unfold afterFind at hok
  cases fa with
  | none => simp at hok
  | some fa₀ =>
    simp only at hok
    cases trace with
    | nil => simp [popEv] at hok
    | cons ev rest₀ =>
      simp only [popEv] at hok
      cases ev with
      | ok lp =>
        simp only at hok
        cases rest₀ with
        | nil =>
          simp [popEv] at hok
        | cons ev₂ rest₂ =>
          simp only [popEv] at hok
          cases ev₂ with
          | ok r =>
            simp only at hok
            injection hok with h'
            have h1 :
                objAssign (objAssign c (extractCookies lp.setCookie))
                  (extractCookies r.setCookie) = allC := congrArg Prod.fst h'
            exact h1 ▸ authSane_objAssign_extract r.setCookie
              (authSane_objAssign_extract lp.setCookie hc)
          | errResp r =>
            simp only at hok
            by_cases h302 : r.status = 302
            · rw [if_pos h302] at hok
              injection hok with h'
              have h1 :
                  objAssign (objAssign c (extractCookies lp.setCookie))
                    (extractCookies r.setCookie) = allC := congrArg Prod.fst h'
              exact h1 ▸ authSane_objAssign_extract r.setCookie
                (authSane_objAssign_extract lp.setCookie hc)
            · rw [if_neg h302] at hok; exact absurd hok (by simp)
          | netErr => simp at hok
      | errResp r => simp at hok
      | netErr => simp at hok

theorem loginSteps_authSane {u p : String} {rand nowSec : Nat}
    {trace : List Outcome} {allC : Cookies} {log : List Req}
    (hok : loginSteps u p rand nowSec trace = .ok (allC, log)) :
    AuthSane allC := by
  unfold loginSteps at hok
  cases hfa : findAccountLoop 3 findAccountUrl (initCookies rand nowSec) trace [] with
  | error l => rw [hfa] at hok; exact absurd hok (by simp)
  | ok out =>
    rw [hfa] at hok
    obtain ⟨c, faResp, rest, log₀⟩ := out
    exact afterFind_authSane
      (findAccountLoop_authSane 3 findAccountUrl (initCookies rand nowSec)
        trace [] c faResp rest log₀ (authSane_initCookies rand nowSec) hfa)
      hok

/-! Helper lemmas for the persistence round trip. -/

theorem filterMap_jstr (l : Cookies) :
    ((l.map (fun nv => (nv.1, JsValue.jstr nv.2))).filterMap (fun nv =>
      match nv.2 with
      | JsValue.jstr v => some (nv.1, v)
      | _ => none)) = l := by
  induction l with
  | nil => rfl
  | cons p t ih => simp [List.filterMap_cons, ih]

theorem sessionFromJson_toJson (s : Session) :
    sessionFromJson (sessionToJson s) = s := by
  cases s with
  | mk cookies timestamp =>
    simp only [sessionToJson, sessionFromJson, jsGetOpt, lastValue]
    norm_num
    exact filterMap_jstr cookies

/-! The claim theorems. -/

/-- C1 (code bug): a schedule request with a valid session whose
get-classes call is rejected with a 401 response answers 401 and unlinks
the persisted session file, but it does not delete the in-memory store
entry for the token, so a subsequent `GET /api/session` with the same
token still reports authenticated.  This contradicts the specification,
which requires both the persisted and the in-memory record to be deleted
so that the session check reports unauthenticated. -/
theorem c1_upstream401_leaves_memory_entry :
    let store₀ : Store := [("tok", ⟨[(".online_auth", "x")], 0⟩)]
    let propsBody : String :=
      "var props = \x7b\"instructors\":[],\"areas\":[],\"branches\":[],\"gxp_account_id\":1\x7d;props.controller_url"
    let trace : List Outcome :=
      [Outcome.ok ⟨200, [], none, propsBody⟩, Outcome.errResp ⟨401, [], none, ""⟩]
    let out := scheduleHandler (some "tok") none none "2026-02-03" 0 store₀
      (some (JsValue.jobj [])) trace
    out.1 = SchedResult.expired401 ∧
      out.2.2.1 = none ∧
      out.2.1 = store₀ ∧
      (sessionHandler (some "tok") none 0 store₀).1
        = SessionResult.authenticated 0 0 :=
  ⟨rfl, rfl, rfl, rfl⟩

/-- C2: when the upstream answers the find-account step with nothing but
302 responses (never a 2xx), the flow does not fail at that point.  The
find-account request passes `validateStatus` accepting every status in
[200, 400) with `maxRedirects: 0` (server.js lines 181-183), so axios
resolves the first 302 as an ordinary response: the loop merges its
cookies, assigns it as the find-account response and breaks — the second
and third responses standing ready are never even requested — and the
flow proceeds to the login-page step with the accumulated cookie set
(the call log continues with the login-page request rather than
failing). -/
theorem c2_redirects_proceed (u p : String) (rand nowSec : Nat)
    (r₁ r₂ r₃ : Resp) (rest : List Outcome)
    (h₁ : r₁.status = 302) (h₂ : r₂.status = 302) (h₃ : r₃.status = 302) :
    findAccountLoop 3 findAccountUrl (initCookies rand nowSec)
        (axiosSettle validateStatusFindAccount (Wire.resp r₁)
          :: axiosSettle validateStatusFindAccount (Wire.resp r₂)
          :: axiosSettle validateStatusFindAccount (Wire.resp r₃) :: rest) []
      = .ok (objAssign (initCookies rand nowSec) (extractCookies r₁.setCookie),
             some r₁,
             axiosSettle validateStatusFindAccount (Wire.resp r₂)
               :: axiosSettle validateStatusFindAccount (Wire.resp r₃) :: rest,
             [Req.findAccount findAccountUrl]) ∧
    (logOf (loginSteps u p rand nowSec
        (axiosSettle validateStatusFindAccount (Wire.resp r₁)
          :: axiosSettle validateStatusFindAccount (Wire.resp r₂)
          :: axiosSettle validateStatusFindAccount (Wire.resp r₃) :: rest))).take 2
      = [Req.findAccount findAccountUrl, Req.loginPage u] := by
  have hs₁ : axiosSettle validateStatusFindAccount (Wire.resp r₁) = .ok r₁ := by
    simp [axiosSettle, validateStatusFindAccount, h₁]
  have hs₂ : axiosSettle validateStatusFindAccount (Wire.resp r₂) = .ok r₂ := by
    simp [axiosSettle, validateStatusFindAccount, h₂]
  have hs₃ : axiosSettle validateStatusFindAccount (Wire.resp r₃) = .ok r₃ := by
    simp [axiosSettle, validateStatusFindAccount, h₃]
  constructor
  · simp [findAccountLoop, popEv, hs₁]
  · simp [loginSteps, findAccountLoop, afterFind, popEv, logOf, hs₁, hs₂, hs₃]

/-- C2 witness: a concrete 302-serving upstream; the loop breaks on the
first redirect response with its cookies merged, and the flow's call log
continues with the login-page request. -/
theorem c2_redirects_proceed_witness :
    findAccountLoop 3 findAccountUrl (initCookies 0 0)
        (axiosSettle validateStatusFindAccount
            (Wire.resp ⟨302, ["a=1; path=/"], some "/step2", ""⟩)
          :: axiosSettle validateStatusFindAccount (Wire.resp ⟨302, [], some "/x", ""⟩)
          :: axiosSettle validateStatusFindAccount (Wire.resp ⟨302, [], some "/y", ""⟩)
          :: []) []
      = .ok (objAssign (initCookies 0 0) (extractCookies ["a=1; path=/"]),
             some ⟨302, ["a=1; path=/"], some "/step2", ""⟩,
             axiosSettle validateStatusFindAccount (Wire.resp ⟨302, [], some "/x", ""⟩)
               :: axiosSettle validateStatusFindAccount (Wire.resp ⟨302, [], some "/y", ""⟩)
               :: [],
             [Req.findAccount findAccountUrl]) ∧
    (logOf (loginSteps "u" "p" 0 0
        (axiosSettle validateStatusFindAccount
            (Wire.resp ⟨302, ["a=1; path=/"], some "/step2", ""⟩)
          :: axiosSettle validateStatusFindAccount (Wire.resp ⟨302, [], some "/x", ""⟩)
          :: axiosSettle validateStatusFindAccount (Wire.resp ⟨302, [], some "/y", ""⟩)
          :: []))).take 2
      = [Req.findAccount findAccountUrl, Req.loginPage "u"] :=
  c2_redirects_proceed "u" "p" 0 0 ⟨302, ["a=1; path=/"], some "/step2", ""⟩
    ⟨302, [], some "/x", ""⟩ ⟨302, [], some "/y", ""⟩ [] rfl rfl rfl

/-- C4 counterexample: a stored session whose key is the empty string is
rejected by the falsy-token guard before the store lookup, so even when
its age exceeds the maximum the lookup returns absent without deleting
the entry — the claim's deletion side effect fails for that stored
session. -/
theorem c4_counterexample :
    objGet "" [("", (⟨[("a", "b")], 0⟩ : Session))] = some ⟨[("a", "b")], 0⟩ ∧
    maxAge + 1 - 0 > maxAge ∧
    loadSession (maxAge + 1) (some "") [("", ⟨[("a", "b")], 0⟩)]
      = (none, [("", ⟨[("a", "b")], 0⟩)]) :=
  ⟨rfl, by decide, rfl⟩

/-- C4 (amended): for every stored session under a non-empty token, a
lookup at an age strictly above the six-month maximum returns absent and
deletes the entry, and a lookup at or under the maximum returns the
session with the store unchanged; a session stored under the empty-string
token is rejected by the falsy-token guard before the store is consulted,
so it is neither returned nor purged. -/
theorem c4_expiry_lookup (now : Nat) (t : String) (store : Store) (s : Session)
    (ht : t ≠ "") (hget : objGet t store = some s) :
    (now - s.timestamp > maxAge →
      loadSession now (some t) store = (none, objDelete t store)) ∧
    (now - s.timestamp ≤ maxAge →
      loadSession now (some t) store = (some s, store)) := by
  constructor
  · intro hage
    simp [loadSession, ht, hget, hage]
  · intro hage
    simp [loadSession, ht, hget, Nat.not_lt_of_le hage]

/-- C4 witness: the amended statement evaluated on a concrete store, for
both the expired and the fresh branch. -/
theorem c4_expiry_lookup_witness :
    (loadSession (maxAge + 1) (some "tok") [("tok", ⟨[("a", "b")], 0⟩)]
      = (none, objDelete "tok" [("tok", ⟨[("a", "b")], 0⟩)])) ∧
    (loadSession maxAge (some "tok") [("tok", ⟨[("a", "b")], 0⟩)]
      = (some ⟨[("a", "b")], 0⟩, [("tok", ⟨[("a", "b")], 0⟩)])) :=
  ⟨(c4_expiry_lookup (maxAge + 1) "tok" [("tok", ⟨[("a", "b")], 0⟩)]
      ⟨[("a", "b")], 0⟩ (by decide) rfl).1 (by decide),
   (c4_expiry_lookup maxAge "tok" [("tok", ⟨[("a", "b")], 0⟩)]
      ⟨[("a", "b")], 0⟩ (by decide) rfl).2 (by decide)⟩

/-- C5: a login request whose body is missing the username or the
password is answered 400 immediately: no upstream request is issued (the
call log is empty, whatever outcomes the environment held ready) and the
session store is unchanged. -/
theorem c5_missing_credentials_400 (body : LoginBody) (rand nowSec nowMs : Nat)
    (newTok : String) (store : Store) (trace : List Outcome)
    (h : body.username = none ∨ body.password = none) :
    loginHandler body rand nowSec nowMs newTok store trace
      = (LoginResult.badRequest400, store, []) := by
  obtain ⟨u?, p?⟩ := body
  cases u? with
  | none => cases p? <;> rfl
  | some u =>
    cases p? with
    | none => rfl
    | some p => simp at h

/-- C5 witness: the missing-password case on a concrete request. -/
theorem c5_missing_credentials_400_witness :
    loginHandler ⟨some "user", none⟩ 1 2 3 "T"
      [("tok", ⟨[], 0⟩)] [Outcome.netErr]
      = (LoginResult.badRequest400, [("tok", ⟨[], 0⟩)], []) :=
  c5_missing_credentials_400 ⟨some "user", none⟩ 1 2 3 "T"
    [("tok", ⟨[], 0⟩)] [Outcome.netErr] (Or.inr rfl)

/-- C3: for every login attempt whose choreography completes (the form
POST got its resolved-or-302 response, producing the merged cookie set
`allCookies`), the handler answers 200 with the freshly issued session
token and stores the session exactly when the merged cookie set contains
`.online_auth`; when that cookie is absent — whatever the final upstream
status was — it answers 401 invalid-credentials and the store is
unchanged. -/
theorem c3_auth_cookie_decides (u p : String) (rand nowSec nowMs : Nat)
    (newTok : String) (store : Store) (trace : List Outcome)
    (allCookies : Cookies) (log : List Req)
    (hu : u ≠ "") (hp : p ≠ "")
    (hsteps : loginSteps u p rand nowSec trace = .ok (allCookies, log)) :
    (objGet ".online_auth" allCookies ≠ none →
      loginHandler ⟨some u, some p⟩ rand nowSec nowMs newTok store trace
        = (LoginResult.ok200 newTok,
           saveSession newTok allCookies nowMs store, log)) ∧
    (objGet ".online_auth" allCookies = none →
      loginHandler ⟨some u, some p⟩ rand nowSec nowMs newTok store trace
        = (LoginResult.invalidCreds401, store, log)) := by
  constructor
  · intro hne
    cases hv : objGet ".online_auth" allCookies with
    | none => exact absurd hv hne
    | some v =>
      have hvne : v ≠ "" := loginSteps_authSane hsteps v hv
      have htr : cookieTruthy allCookies ".online_auth" = true := by
        simp [cookieTruthy, hv, bne_iff_ne, hvne]
      simp [loginHandler, hu, hp, hsteps, htr]
  · intro hnone
    have htr : cookieTruthy allCookies ".online_auth" = false := by
      simp [cookieTruthy, hnone]
    simp [loginHandler, hu, hp, hsteps, htr]

/-- C3 witness: a concrete completing run whose form POST sets the auth
cookie; the handler answers 200 with the fresh token and stores the
merged cookie set. -/
theorem c3_auth_cookie_decides_witness :
    loginHandler ⟨some "u", some "p"⟩ 0 0 7 "T" []
      [Outcome.ok ⟨200, [], none, ""⟩, Outcome.ok ⟨200, [], none, ""⟩,
       Outcome.ok ⟨200, [".online_auth=abc"], none, ""⟩]
      = (LoginResult.ok200 "T",
         saveSession "T" (initCookies 0 0 ++ [(".online_auth", "abc")]) 7 [],
         [Req.findAccount findAccountUrl, Req.loginPage "u",
          Req.loginPost
            ⟨"", "u", "p", "false", "/online/5198/Redirect/Homepage.mvc", "", ""⟩]) :=
  (c3_auth_cookie_decides "u" "p" 0 0 7 "T" []
    [Outcome.ok ⟨200, [], none, ""⟩, Outcome.ok ⟨200, [], none, ""⟩,
     Outcome.ok ⟨200, [".online_auth=abc"], none, ""⟩]
    (initCookies 0 0 ++ [(".online_auth", "abc")])
    [Req.findAccount findAccountUrl, Req.loginPage "u",
     Req.loginPost
       ⟨"", "u", "p", "false", "/online/5198/Redirect/Homepage.mvc", "", ""⟩]
    (by decide) (by decide) rfl).1 (by decide)

/-- Mapping a store through the persisted JSON document and back is the
identity on every entry. -/
theorem map_decode_encode (store : Store) :
    (store.map (fun ts => (ts.1, sessionToJson ts.2))).map
      (fun ts => (ts.1, sessionFromJson ts.2)) = store := by
  induction store with
  | nil => rfl
  | cons p t ih => simp [ih, sessionFromJson_toJson]

/-- C6: serializing the session store to the persistence file and
reloading it into an empty store preserves, for every token, the bound
session — the identical cookie name-to-value mapping and the identical
timestamp (the store's tokens are distinct, as `Map` keys are). -/
theorem c6_persistence_roundtrip (store : Store)
    (hnd : (store.map Prod.fst).Nodup) (t : String) :
    objGet t (loadSessionsFromDisk (saveSessionsToDisk store) [])
      = objGet t store := by
  have hload :
      loadSessionsFromDisk (saveSessionsToDisk store) []
        = objAssignList [] store := by
    simp only [loadSessionsFromDisk, saveSessionsToDisk, map_decode_encode]
  rw [hload]
  have : objGet t (objAssignList [] store) = lastValue t store := by
    rw [objGet_objAssignList]
    cases lastValue t store <;> simp [objGet]
  rw [this, lastValue_eq_objGet_of_nodup hnd]

/-- C6 witness: a concrete two-session store round-trips; the reloaded
lookup agrees with the original and is the stored record. -/
theorem c6_persistence_roundtrip_witness :
    objGet "t1"
        (loadSessionsFromDisk
          (saveSessionsToDisk [("t1", ⟨[("a", "b")], 3⟩), ("t2", ⟨[], 5⟩)]) [])
      = objGet "t1" [("t1", ⟨[("a", "b")], 3⟩), ("t2", ⟨[], 5⟩)] ∧
    objGet "t1" [("t1", (⟨[("a", "b")], 3⟩ : Session)), ("t2", ⟨[], 5⟩)]
      = some ⟨[("a", "b")], 3⟩ :=
  ⟨c6_persistence_roundtrip [("t1", ⟨[("a", "b")], 3⟩), ("t2", ⟨[], 5⟩)]
    (by decide) "t1", rfl⟩

/-- C7: when the login-page body contains no anti-forgery token matching
the extraction pattern, the flow does not throw before the form POST: the
call log always shows the login-page request followed by the form POST
whose `__RequestVerificationToken` field is the empty string, whatever
outcome the POST then meets (a rejection lands in the normal failure
paths after the call). -/
theorem c7_empty_token_proceeds (u p : String) (cookies : Cookies)
    (fa lp : Resp) (rest : List Outcome) (log : List Req)
    (h : findCsrf lp.body = none) :
    logOf (afterFind u p cookies (some fa) (Outcome.ok lp :: rest) log)
      = log ++ [Req.loginPage u,
          Req.loginPost
            ⟨"", u, p, "false", "/online/5198/Redirect/Homepage.mvc", "", ""⟩] := by
  have hcsrf : csrfOf lp.body = "" := by
    unfold csrfOf
    by_cases hb : lp.body = "" <;> simp [hb, h]
  unfold afterFind
  cases rest with
  | nil => simp [popEv, logOf, hcsrf]
  | cons ev₂ rest₂ =>
    cases ev₂ with
    | ok r => simp [popEv, logOf, hcsrf]
    | errResp r =>
      by_cases h302 : r.status = 302 <;> simp [popEv, logOf, hcsrf, h302]
    | netErr => simp [popEv, logOf, hcsrf]

/-- C7 witness: a concrete login page with no anti-forgery token; the
POST is issued with an empty token field. -/
theorem c7_empty_token_proceeds_witness :
    logOf (afterFind "u" "p" [] (some ⟨200, [], none, ""⟩)
        [Outcome.ok ⟨200, [], none, "<html></html>"⟩] [])
      = [Req.loginPage "u",
         Req.loginPost
           ⟨"", "u", "p", "false", "/online/5198/Redirect/Homepage.mvc", "", ""⟩] := by
  have := c7_empty_token_proceeds "u" "p" [] ⟨200, [], none, ""⟩
    ⟨200, [], none, "<html></html>"⟩ [] [] rfl
  simpa using this

/-- C8 counterexample: a request carrying the `x-session-token` header
with an empty value and a non-empty `sessionToken` cookie: the cookie
value, not the header value, is the one looked up — `GET /api/session`
even authenticates against the cookie's entry — refuting the claim that
the header value is looked up whenever both are present and that the
cookie is consulted only when the header is absent. -/
theorem c8_counterexample :
    resolveSessionToken (some "") (some "T") = some "T" ∧
    (some "T" : Option String) ≠ some "" ∧
    (sessionHandler (some "") (some "T") 5 [("T", ⟨[("a", "b")], 5⟩)]).1
      = SessionResult.authenticated 0 5 :=
  ⟨rfl, by decide, rfl⟩

/-- C8 (amended): the header value is the one looked up when the header
is present and non-empty; the cookie is consulted when the header is
absent or empty (this token resolution is the one both `GET /api/session`
and `GET /api/schedule` apply to the store). -/
theorem c8_header_precedence (h : String) (c : Option String) (hne : h ≠ "") :
    resolveSessionToken (some h) c = some h ∧
    resolveSessionToken none c = c ∧
    resolveSessionToken (some "") c = c := by
  refine ⟨?_, rfl, rfl⟩
  simp [resolveSessionToken, hne]

/-- C8 witness: the amended precedence on concrete header and cookie
values. -/
theorem c8_header_precedence_witness :
    resolveSessionToken (some "x") (some "y") = some "x" :=
  (c8_header_precedence "x" (some "y") (by decide)).1

/-- C9: the `Set-Cookie` extraction and the merge.  A header of the
shape name, `=`, remainder — the name non-empty and free of `=` — parses
to the name bound to the remainder's non-empty text before the first
`;` (and to nothing when that text is empty); a header containing no `=`
at all contributes nothing; the extracted object binds each name to the
value of the last parseable header carrying it; and merging an extracted
set into an accumulated set binds each name to its newest value while
never removing an existing binding. -/
theorem c9_cookie_extraction :
    (∀ (nameL tail : List Char), nameL ≠ [] → (∀ c ∈ nameL, c ≠ '=') →
        parseSetCookie ⟨nameL ++ '=' :: tail⟩
          = (if tail.takeWhile (fun c => c != ';') = [] then none
             else some (⟨nameL⟩, ⟨tail.takeWhile (fun c => c != ';')⟩))) ∧
    (∀ s : String, (∀ c ∈ s.data, c ≠ '=') → parseSetCookie s = none) ∧
    (∀ (hs : List String) (n : String),
        objGet n (extractCookies hs)
          = lastValue n (hs.filterMap parseSetCookie)) ∧
    (∀ (old new : Cookies) (n : String),
        objGet n (objAssign old new)
          = match lastValue n new with
            | some v => some v
            | none => objGet n old) := by
  refine ⟨?_, ?_, fun hs n => objGet_extractCookies hs n,
    fun old new n => by
      rw [objAssign, objGet_objAssignList new old n]
      cases lastValue n new <;> rfl⟩
  · intro nameL tail h1 h2
    have hall : ∀ c ∈ nameL, (fun c => c != '=') c = true := by
      intro c hc
      simpa [bne_iff_ne] using h2 c hc
    have hdata : (⟨nameL ++ '=' :: tail⟩ : String).data = nameL ++ '=' :: tail := rfl
    have ht : (nameL ++ '=' :: tail).takeWhile (fun c => c != '=') = nameL := by
      rw [takeWhile_append_sat _ _ _ hall]
      simp [List.takeWhile_cons]
    have hd : (nameL ++ '=' :: tail).dropWhile (fun c => c != '=') = '=' :: tail := by
      rw [dropWhile_append_sat _ _ _ hall]
      simp [List.dropWhile_cons]
    simp only [parseSetCookie, hdata, ht, hd]
    by_cases htw : tail.takeWhile (fun c => c != ';') = [] <;> simp [h1, htw]
  · intro s h
    have hall : ∀ c ∈ s.data, (fun c => c != '=') c = true := by
      intro c hc
      simpa [bne_iff_ne] using h c hc
    have hdrop : s.data.dropWhile (fun c => c != '=') = [] :=
      dropWhile_sat_nil _ _ hall
    simp [parseSetCookie, hdrop]

/-- C9 witness: concrete headers — a parseable one, one with no `=`, a
name bound twice with the last value winning, and a merge overwriting
the accumulated value. -/
theorem c9_cookie_extraction_witness :
    parseSetCookie "a=b;c" = some ("a", "b") ∧
    parseSetCookie "abc" = none ∧
    objGet "d" (extractCookies ["d=1", "d=2;x", "bad"]) = some "2" ∧
    objGet "k" (objAssign [("k", "v0"), ("z", "w")] [("k", "v1")]) = some "v1" := by
  obtain ⟨h1, h2, h3, h4⟩ := c9_cookie_extraction
  exact ⟨h1 ("a".data) ("b;c".data) (by decide) (by decide),
    h2 "abc" (by decide),
    h3 ["d=1", "d=2;x", "bad"] "d",
    h4 [("k", "v0"), ("z", "w")] [("k", "v1")] "k"⟩

/-- C10: a rejected schedule-page fetch yields no mappings, as does a
page whose body contains no match of the props pattern; and an
authenticated schedule request whose mappings scrape fails is answered
with the mappings 500 — the call log stops at the schedule-page request,
so the get-classes POST is never issued, and neither the store nor the
session file changes. -/
theorem c10_mappings_failure :
    (∀ (c : Cookies) (r : Resp),
        fetchScheduleMappings c (Outcome.errResp r) = none ∧
        fetchScheduleMappings c Outcome.netErr = none) ∧
    (∀ (c : Cookies) (r : Resp), findProps r.body = none →
        fetchScheduleMappings c (Outcome.ok r) = none) ∧
    (∀ (t today : String) (s : Session) (store : Store) (now : Nat)
        (file : FileState) (e : Outcome) (rest : List Outcome)
        (dq : Option String),
        t ≠ "" → objGet t store = some s → now - s.timestamp ≤ maxAge →
        fetchScheduleMappings s.cookies e = none →
        scheduleHandler (some t) none dq today now store file (e :: rest)
          = (SchedResult.mappingsFail500, store, file, [Req.schedPage])) := by
  refine ⟨fun c r => ⟨rfl, rfl⟩,
    fun c r h => by simp [fetchScheduleMappings, h], ?_⟩
  intro t today s store now file e rest dq ht hget hage hfetch
  have hnot : ¬ (now - s.timestamp > maxAge) := by omega
  have hload : loadSession now (some t) store = (some s, store) := by
    simp [loadSession, ht, hget, hnot]
  simp [scheduleHandler, resolveSessionToken, ht, hload, popEv, hfetch]

/-- C10 witness: a concrete authenticated request whose schedule page
carries no props object. -/
theorem c10_mappings_failure_witness :
    scheduleHandler (some "tok") none none "2026-02-03" 0
        [("tok", ⟨[], 0⟩)] none [Outcome.ok ⟨200, [], none, "no props here"⟩]
      = (SchedResult.mappingsFail500, [("tok", ⟨[], 0⟩)], none,
         [Req.schedPage]) :=
  c10_mappings_failure.2.2 "tok" "2026-02-03" ⟨[], 0⟩ [("tok", ⟨[], 0⟩)] 0 none
    (Outcome.ok ⟨200, [], none, "no props here"⟩) [] none
    (by decide) rfl (by decide) rfl

end Jcc
